import Mathlib

set_option maxHeartbeats 1000000

/-!
Verification of the pyipa repository (avtk.py, ipaui.py) against its
specification.  The Python code is shallowly embedded: property dictionaries
become finite maps `String → Option PVal`, Python callables that may raise
become values recording their outcome, COM attribute accesses that may raise
become `Except`-valued environment fields, and the retry / polling loops
become fuel-indexed recursive functions driven by an environment.
-/

/-- Property values stored in a widget's `properties` dictionary
(strings, integers, booleans cover everything the claims touch). -/
inductive PVal
| s (v : String)
| i (v : Int)
| b (v : Bool)
deriving DecidableEq

/-- A widget's property dictionary (Python `dict`), viewed as a map. -/
abbrev PropMap := String → Option PVal

/-- A single keyword-argument list, the `kwargs` of one `configure` call. -/
abbrev Call := List (String × PVal)

/-- Python `dict.update(kwargs)`: later pairs override earlier ones and the
receiver's previous entries. -/
def dictUpdate (m : PropMap) (kvs : Call) : PropMap :=
  kvs.foldl (fun acc kv => fun k => if k = kv.1 then some kv.2 else acc k) m

/-- The empty dictionary. -/
def emptyProps : PropMap := fun _ => none

/-- Outcome of calling a Python callable bound as a widget command:
it either returns normally or raises with a message. -/
inductive CbResult
| ok
| raises (msg : String)
deriving DecidableEq

/-- Observable outcome of running a piece of code: it completes (having
printed some lines) or an exception escapes uncaught. -/
inductive Outcome
| completed (printed : List String)
| uncaught (msg : String)
deriving DecidableEq

/-- Whether an `Outcome` did not let an exception escape. -/
def isCaught : Outcome → Bool
| .completed _ => true
| .uncaught _ => false

/-- Calling a callable directly, with no surrounding try/except: a raise
escapes to the caller (for a `threading.Thread` target, to the thread
bootstrap). -/
def runCallable : CbResult → Outcome
| .ok => .completed []
| .raises m => .uncaught m

def underscoreStr : String := "_"
def textKey : String := "text"
def valueKey : String := "value"
def maximumKey : String := "maximum"
def clickEvent : String := "click"
def pipeSep : String := "|"
def errPrefix : String := "command error: "

/-- `AvWidget` (avtk.py line 22): `widget_type`, the identifier string
`f"{widget_type}_{id(self)}"`, the property dictionary, and the optional
bound command.  `objId` records the Python object identity `id(self)`
used to build the identifier; `children`/`bindings`/`parent` play no role
in the claims (no class in the repository defines `update_widget`, so the
`configure` branch guarded by `hasattr(self.parent, 'update_widget')`
never fires). -/
structure AvWidget where
  widget_type : String
  objId : Nat
  id : String
  properties : PropMap
  command : Option CbResult

/-- `AvWidget.__init__` (avtk.py lines 25-32): the identifier is derived
from the widget type and the object identity at construction, and
`properties` starts as a copy of the keyword arguments. -/
def avWidget_init (objId : Nat) (widget_type : String) (kwargs : Call) : AvWidget :=
  { widget_type := widget_type
    objId := objId
    id := widget_type ++ underscoreStr ++ Nat.repr objId
    properties := dictUpdate emptyProps kwargs
    command := none }

/-- `AvWidget.configure` (avtk.py lines 49-54): `self.properties.update(kwargs)`.
The re-render request is dead code (no parent has `update_widget`). -/
def configure (w : AvWidget) (kwargs : Call) : AvWidget :=
  { w with properties := dictUpdate w.properties kwargs }

/-- A finite sequence of `configure` calls, applied in order. -/
def configureSeq (w : AvWidget) (calls : List Call) : AvWidget :=
  calls.foldl configure w

/-- `AvWidget.invoke_command` (avtk.py lines 61-67): the bound command runs
inside try/except; a raise is caught and printed, never propagated. -/
def invoke_command (w : AvWidget) : Outcome :=
  match w.command with
  | none => .completed []
  | some cb =>
    match runCallable cb with
    | .completed p => .completed p
    | .uncaught m => .completed [errPrefix ++ m]

/-- `AvButton.__init__` (avtk.py lines 73-76). -/
def avButton_init (objId : Nat) (text : String) (command : Option CbResult)
    (kwargs : Call) : AvWidget :=
  let w := avWidget_init objId ("Button") kwargs
  { w with properties := dictUpdate w.properties [(textKey, PVal.s text)]
           command := command }

/-- `AvButton.click` (avtk.py lines 78-80): goes through `invoke_command`. -/
def avButton_click (w : AvWidget) : Outcome :=
  invoke_command w

/-- `AvProgressbar.__init__` (avtk.py lines 282-287). -/
def avProgressbar_init (objId : Nat) (maximum : Int) (kwargs : Call) : AvWidget :=
  let w := avWidget_init objId ("ProgressBar") kwargs
  { w with properties :=
      dictUpdate w.properties [(maximumKey, PVal.i maximum), (valueKey, PVal.i 0)] }

/-- Python `properties.get(key, default)` read as an integer: absent keys
yield the default, an integer value yields itself, and a value of any other
type would make the arithmetic in `step` raise (`none`). -/
def getIntProp (m : PropMap) (k : String) (default : Int) : Option Int :=
  match m k with
  | none => some default
  | some (.i n) => some n
  | some _ => none

/-- `AvProgressbar.step` (avtk.py lines 289-294):
`min(current + amount, maximum)` written back via `configure`. -/
def step (w : AvWidget) (amount : Int) : Option AvWidget := do
  let current ← getIntProp w.properties valueKey 0
  let maximum ← getIntProp w.properties maximumKey 100
  pure (configure w [(valueKey, PVal.i (min (current + amount) maximum))])

/-- A sequence of `step` calls. -/
def stepSeq (w : AvWidget) : List Int → Option AvWidget
| [] => some w
| a :: rest =>
  match step w a with
  | some w' => stepSeq w' rest
  | none => none

/-- `AvWindow` (avtk.py lines 301-314), restricted to the fields the claims
touch: the ordered widget list. -/
structure AvWindow where
  title : String
  widgets : List AvWidget

/-- `AvWindow.__init__`: starts with no widgets. -/
def avWindow_init (title : String) : AvWindow :=
  { title := title, widgets := [] }

/-- `AvWindow.add` (avtk.py lines 316-320): appends the widget. -/
def add (win : AvWindow) (w : AvWidget) : AvWindow :=
  { win with widgets := win.widgets ++ [w] }

def pipeChar : Char := '|'

/-- Python whitespace as stripped by `str.strip()`. -/
def isPyWhitespace (c : Char) : Bool :=
  c = (' ') || c = Char.ofNat 9 || c = Char.ofNat 10 || c = Char.ofNat 13 ||
  c = Char.ofNat 11 || c = Char.ofNat 12

/-- Python `str.strip()` on the underlying character list. -/
def stripChars (l : List Char) : List Char :=
  ((l.dropWhile isPyWhitespace).reverse.dropWhile isPyWhitespace).reverse

/-- Python `str.strip()`. -/
def pyStrip (s : String) : String :=
  ⟨stripChars s.data⟩

/-- Python `str.split(sep)` for a one-character separator: always returns
at least one field; adjacent separators produce empty fields. -/
def splitOnChar (sep : Char) : List Char → List (List Char)
| [] => [[]]
| c :: rest =>
  match splitOnChar sep rest with
  | [] => if c = sep then [[], []] else [[c]]
  | cur :: others =>
    if c = sep then [] :: cur :: others else (c :: cur) :: others

/-- Python `str.split('|')`. -/
def pySplit (s : String) (sep : Char) : List String :=
  (splitOnChar sep s.data).map (fun l => ⟨l⟩)

/-- The widget-matching loop of `AvWindow.handle_pipe_message` (avtk.py
lines 796-802): scan for the first widget whose id matches; on a `click`
event with a truthy bound command, spawn a thread whose target is the raw
`widget.command`; then break.  Returns the commands handed to new threads. -/
def dispatchClick : List AvWidget → String → String → List CbResult
| [], _, _ => []
| w :: rest, widget_id, event_type =>
  if w.id = widget_id then
    (if event_type = clickEvent then w.command.toList else [])
  else dispatchClick rest widget_id event_type

/-- `AvWindow.handle_pipe_message` (avtk.py lines 789-802): strip the line,
split on the separator, and only if it has at least two fields dispatch to
the matching widget.  The window's own state is never mutated here; the
second component lists the callables spawned on new threads. -/
def handle_pipe_message (win : AvWindow) (message : String) :
    AvWindow × List CbResult :=
  let parts := pySplit (pyStrip message) pipeChar
  match parts with
  | widget_id :: event_type :: _ => (win, dispatchClick win.widgets widget_id event_type)
  | _ => (win, [])

/-- The last value written for a key across one flat list of key/value
pairs (later entries take precedence), following the specification's
"last value written per key". -/
def lastWrite : List (String × PVal) → String → Option PVal
| [], _ => none
| kv :: rest, k =>
  match lastWrite rest k with
  | some v => some v
  | none => if kv.1 = k then some kv.2 else none

/-- Keys written by a sequence of configure calls. -/
def keysOf (calls : List Call) : List String :=
  calls.flatten.map Prod.fst

/-- Two sequences of configure calls writing disjoint key sets. -/
def DisjointKeys (s1 s2 : List Call) : Prop :=
  ∀ k ∈ keysOf s1, k ∉ keysOf s2

instance (s1 s2 : List Call) : Decidable (DisjointKeys s1 s2) :=
  inferInstanceAs (Decidable (∀ k ∈ keysOf s1, k ∉ keysOf s2))

/-- `Interleave s1 s2 t`: `t` is an order-preserving interleaving of the
call sequences `s1` and `s2`. -/
inductive Interleave : List Call → List Call → List Call → Prop
| nil : Interleave [] [] []
| left {s1 s2 t} (a : Call) : Interleave s1 s2 t → Interleave (a :: s1) s2 (a :: t)
| right {s1 s2 t} (b : Call) : Interleave s1 s2 t → Interleave s1 (b :: s2) (b :: t)

theorem keysOf_cons (a : Call) (s : List Call) :
    keysOf (a :: s) = a.map Prod.fst ++ keysOf s := by
  simp [keysOf]

theorem dictUpdate_apply (kvs : Call) :
    ∀ (m : PropMap) (k : String),
      dictUpdate m kvs k =
      match lastWrite kvs k with
      | some v => some v
      | none => m k := by
  induction kvs with
  | nil => intro m k; rfl
  | cons kv rest ih =>
    intro m k
    show dictUpdate (fun k' => if k' = kv.1 then some kv.2 else m k') rest k = _
    rw [ih]
    simp only [lastWrite]
    cases lastWrite rest k with
    | some v => rfl
    | none =>
      by_cases h : k = kv.1
      · subst h; simp
      · simp only [if_neg h, if_neg (fun hk : kv.1 = k => h hk.symm)]

theorem lastWrite_append (l1 l2 : List (String × PVal)) (k : String) :
    lastWrite (l1 ++ l2) k =
    match lastWrite l2 k with
    | some v => some v
    | none => lastWrite l1 k := by
  induction l1 with
  | nil =>
    simp only [List.nil_append]
    cases lastWrite l2 k <;> simp [lastWrite]
  | cons kv rest ih =>
    rw [List.cons_append]
    cases h2 : lastWrite l2 k with
    | some v => simp [lastWrite, ih, h2]
    | none =>
      cases hr : lastWrite rest k with
      | some v => simp [lastWrite, ih, h2, hr]
      | none => simp [lastWrite, ih, h2, hr]

theorem lastWrite_eq_none_of_not_mem {l : List (String × PVal)} {k : String}
    (h : k ∉ l.map Prod.fst) : lastWrite l k = none := by
  induction l with
  | nil => rfl
  | cons kv rest ih =>
    simp only [List.map_cons, List.mem_cons] at h
    push_neg at h
    simp only [lastWrite, ih h.2]
    rw [if_neg (fun hk : kv.1 = k => h.1 hk.symm)]

theorem mem_of_lastWrite_eq_some {l : List (String × PVal)} {k : String} {v : PVal}
    (h : lastWrite l k = some v) : k ∈ l.map Prod.fst := by
  by_contra hk
  rw [lastWrite_eq_none_of_not_mem hk] at h
  exact Option.noConfusion h

theorem configureSeq_properties (calls : List Call) :
    ∀ (w : AvWidget), (configureSeq w calls).properties =
      calls.foldl dictUpdate w.properties := by
  induction calls with
  | nil => intro w; rfl
  | cons c rest ih =>
    intro w
    show (configureSeq (configure w c) rest).properties = _
    rw [ih]
    rfl

theorem foldl_dictUpdate_apply (calls : List Call) :
    ∀ (m : PropMap) (k : String),
      calls.foldl dictUpdate m k =
      match lastWrite calls.flatten k with
      | some v => some v
      | none => m k := by
  induction calls with
  | nil => intro m k; rfl
  | cons c rest ih =>
    intro m k
    simp only [List.foldl_cons, List.flatten_cons, ih, lastWrite_append, dictUpdate_apply]
    cases lastWrite rest.flatten k <;> cases lastWrite c k <;> rfl

theorem interleave_lastWrite {s1 s2 t : List Call}
    (hd : DisjointKeys s1 s2) (hi : Interleave s1 s2 t) (k : String) :
    lastWrite t.flatten k = lastWrite (s1 ++ s2).flatten k := by
  induction hi with
  | nil => rfl
  | left a hrec ih =>
    rename_i s1' s2' t'
    have hd' : DisjointKeys s1' s2' := by
      intro k1 hk1
      exact hd k1 (by rw [keysOf_cons]; exact List.mem_append_right _ hk1)
    have h1 : ((a :: s1') ++ s2').flatten = a ++ (s1' ++ s2').flatten := by simp
    have h2 : (a :: t').flatten = a ++ t'.flatten := by simp
    rw [h2, h1, lastWrite_append, lastWrite_append, ih hd']
  | right b hrec ih =>
    rename_i s1' s2' t'
    have hd' : DisjointKeys s1' s2' := by
      intro k1 hk1 hk2
      exact hd k1 hk1 (by rw [keysOf_cons]; exact List.mem_append_right _ hk2)
    have h1 : (s1' ++ b :: s2').flatten = s1'.flatten ++ (b ++ s2'.flatten) := by simp
    have h2 : (b :: t').flatten = b ++ t'.flatten := by simp
    have h3 : (s1' ++ s2').flatten = s1'.flatten ++ s2'.flatten := by simp
    rw [h2, h1, lastWrite_append, lastWrite_append, lastWrite_append, ih hd', h3,
      lastWrite_append]
    cases hs2 : lastWrite s2'.flatten k with
    | some v => rfl
    | none =>
      cases hs1 : lastWrite s1'.flatten k with
      | some v =>
        have hk1 : k ∈ keysOf s1' := mem_of_lastWrite_eq_some hs1
        have hkb : k ∉ b.map Prod.fst := by
          intro hb
          exact hd k hk1 (by rw [keysOf_cons]; exact List.mem_append_left _ hb)
        rw [lastWrite_eq_none_of_not_mem hkb]
      | none =>
        cases lastWrite b k <;> rfl

/-- Claim C1: for every widget and every finite sequence of `configure`
calls, the resulting property mapping assigns to each key the last value
written for that key (falling back to the prior value for unwritten keys);
and for call sequences writing disjoint key sets, every interleaving yields
the same final mapping. -/
theorem configure_last_write_wins :
    (∀ (w : AvWidget) (calls : List Call) (k : String),
      (configureSeq w calls).properties k =
      match lastWrite calls.flatten k with
      | some v => some v
      | none => w.properties k) ∧
    (∀ (w : AvWidget) (s1 s2 t u : List Call),
      DisjointKeys s1 s2 → Interleave s1 s2 t → Interleave s1 s2 u →
      ∀ k, (configureSeq w t).properties k = (configureSeq w u).properties k) := by
  constructor
  · intro w calls k
    rw [configureSeq_properties, foldl_dictUpdate_apply]
  · intro w s1 s2 t u hd ht hu k
    rw [configureSeq_properties, configureSeq_properties,
      foldl_dictUpdate_apply, foldl_dictUpdate_apply,
      interleave_lastWrite hd ht k, interleave_lastWrite hd hu k]

def demoWidget : AvWidget := avWidget_init 3 ("Label") []
def callA : Call := [(textKey, PVal.s ("A"))]
def callB : Call := [(valueKey, PVal.i 1)]

/-- Witness for C1: concrete disjoint one-call sequences and the two
interleavings of them agree on the final mapping. -/
theorem configure_last_write_wins_witness :
    DisjointKeys [callA] [callB] ∧
    (configureSeq demoWidget [callA, callB]).properties textKey =
      (configureSeq demoWidget [callB, callA]).properties textKey :=
  ⟨by decide,
   configure_last_write_wins.2 demoWidget [callA] [callB]
     [callA, callB] [callB, callA] (by decide)
     (Interleave.left callA (Interleave.right callB Interleave.nil))
     (Interleave.right callB (Interleave.left callA Interleave.nil))
     textKey⟩

/-- Claim C3: an inbound pipe line splitting into fewer than two fields is
ignored: the handler is a total function (no exception), every widget's
state is unchanged, and no callback thread is spawned. -/
theorem malformed_pipe_line_ignored (win : AvWindow) (message : String)
    (h : (pySplit (pyStrip message) pipeChar).length < 2) :
    handle_pipe_message win message = (win, []) := by
  unfold handle_pipe_message
  cases hp : pySplit (pyStrip message) pipeChar with
  | nil => simp [hp]
  | cons a tail =>
    cases tail with
    | nil => simp [hp]
    | cons b rest =>
      rw [hp] at h
      simp at h
      omega

def demoButton : AvWidget := avButton_init 1 ("Hi") (some CbResult.ok) []
def demoWin : AvWindow := add (avWindow_init ("Demo")) demoButton
def malformedMsg : String := "hello"

/-- Witness for C3: a separator-free line is left entirely alone. -/
theorem malformed_pipe_line_ignored_witness :
    (pySplit (pyStrip malformedMsg) pipeChar).length < 2 ∧
    handle_pipe_message demoWin malformedMsg = (demoWin, []) :=
  ⟨by decide, malformed_pipe_line_ignored demoWin malformedMsg (by decide)⟩

def w1Id : String := "W1"
def oldText : String := "Old"
def helloText : String := "Hello"
def setTextCmd : String := "set_text"
def setTextMsg : String := "W1|set_text|Hello"

/-- A widget whose id is `W1` and whose recorded text is `Old` (Python
object attributes are assignable, so any id string is reachable). -/
def c2Widget : AvWidget :=
  { widget_type := ("Button"), objId := 0, id := w1Id
    properties := dictUpdate emptyProps [(textKey, PVal.s oldText)]
    command := none }

def c2Win : AvWindow := add (avWindow_init ("C2")) c2Widget

/-- Counterexample to claim C2: dispatching `W1|set_text|Hello` to a window
holding a widget of id `W1` leaves the recorded text at `Old`; the host-side
handler recognizes only `click` events, so the text never becomes `Hello`. -/
theorem set_text_pipe_line_counterexample :
    c2Widget.id = w1Id ∧
    ((handle_pipe_message c2Win setTextMsg).1.widgets.map
      (fun w => w.properties textKey)) = [some (PVal.s oldText)] ∧
    PVal.s oldText ≠ PVal.s helloText :=
  ⟨rfl, rfl, by decide⟩

theorem dispatchClick_non_click (ws : List AvWidget) (wid evt : String)
    (h : evt ≠ clickEvent) : dispatchClick ws wid evt = [] := by
  induction ws with
  | nil => rfl
  | cons w rest ih =>
    simp only [dispatchClick]
    by_cases hw : w.id = wid
    · simp [hw, h]
    · simp [hw, ih]

/-- Claim C2 (amended): handling the inbound line `W1|set_text|Hello`
changes no widget state and spawns no callback, for every window: the
host-side dispatcher reacts only to `click` events (`set_text` is an
outbound command, applied by the child process, not recorded host-side). -/
theorem set_text_pipe_line_amended (win : AvWindow) :
    handle_pipe_message win setTextMsg = (win, []) := by
  unfold handle_pipe_message
  have hs : pySplit (pyStrip setTextMsg) pipeChar = [w1Id, setTextCmd, helloText] := by decide
  rw [hs]
  simp [dispatchClick_non_click win.widgets w1Id setTextCmd (by decide)]

def boomMsg : String := "boom"
def c5Widget : AvWidget :=
  { widget_type := ("Button"), objId := 7, id := ("B7")
    properties := emptyProps
    command := some (CbResult.raises boomMsg) }
def c5Win : AvWindow := add (avWindow_init ("C5")) c5Widget
def c5ClickMsg : String := "B7|click"

/-- Counterexample to claim C5: on the inbound pipe click path the raw
bound command is handed to a fresh thread without the `invoke_command`
try/except, so a raising command escapes uncaught on that path. -/
theorem callback_exception_pipe_path_counterexample :
    (handle_pipe_message c5Win c5ClickMsg).2 = [CbResult.raises boomMsg] ∧
    isCaught (runCallable (CbResult.raises boomMsg)) = false :=
  ⟨rfl, rfl⟩

/-- Claim C5 (amended): a raising command is caught and printed when run
through `AvWidget.invoke_command` — the path `AvButton.click` uses — and is
never propagated there; but the inbound pipe click dispatch spawns the raw
command on a new thread, where a raise is not caught by any program code. -/
theorem callback_exception_amended :
    (∀ w : AvWidget, isCaught (invoke_command w) = true) ∧
    (∀ w : AvWidget, isCaught (avButton_click w) = true) ∧
    (handle_pipe_message c5Win c5ClickMsg).2 = [CbResult.raises boomMsg] ∧
    isCaught (runCallable (CbResult.raises boomMsg)) = false := by
  refine ⟨?_, ?_, rfl, rfl⟩ <;>
  · intro w
    simp only [avButton_click, invoke_command]
    cases w.command with
    | none => rfl
    | some cb => cases cb <;> rfl

def arrowStatus : String := "arrow"
def penStatus : String := "pen"
def eraserStatus : String := "eraser"

/-- The literal dict in `ToogleArrowStatusToPPT` (ipaui.py lines 77-84). -/
def pointerModeTable : List (String × Nat) :=
  [(arrowStatus, 1), (penStatus, 2), (eraserStatus, 3)]

/-- Python `dict.get(key, default)` over a small literal table. -/
def dictGetNat : List (String × Nat) → String → Nat → Nat
| [], _, d => d
| kv :: rest, k, d => if kv.1 = k then kv.2 else dictGetNat rest k d

/-- `ToogleArrowStatusToPPT` (ipaui.py lines 77-84): the value it assigns
to `View.PointerType`. -/
def toogleArrowStatusToPPT (status : String) : Nat :=
  dictGetNat pointerModeTable status 1

/-- Claim C4: the pointer-mode toggle maps `arrow` to 1, `pen` to 2,
`eraser` to 3, and every other status string to the default 1. -/
theorem pointer_mode_mapping (status : String) :
    toogleArrowStatusToPPT status =
      if status = arrowStatus then 1
      else if status = penStatus then 2
      else if status = eraserStatus then 3
      else 1 := by
  by_cases h1 : status = arrowStatus
  · subst h1; decide
  by_cases h2 : status = penStatus
  · subst h2; decide
  by_cases h3 : status = eraserStatus
  · subst h3; decide
  have g1 : ¬(arrowStatus = status) := fun h => h1 h.symm
  have g2 : ¬(penStatus = status) := fun h => h2 h.symm
  have g3 : ¬(eraserStatus = status) := fun h => h3 h.symm
  simp [toogleArrowStatusToPPT, pointerModeTable, dictGetNat, g1, g2, g3, h1, h2, h3]

/-- The COM presentation object: reading its `ReadOnly` flag may raise. -/
structure COMPresentation where
  readOnlyFlag : Except String Bool

/-- The PowerPoint COM environment: accessing `ActivePresentation` may
raise (application gone, no active document, permission denied, ...). -/
structure PPTEnv where
  activePresentation : Except String COMPresentation

/-- `checkIfPPTLockedOrReadOnly` (ipaui.py lines 38-46): any exception in
the two accesses is swallowed and reported as locked. -/
def checkIfPPTLockedOrReadOnly (env : PPTEnv) : Bool :=
  match env.activePresentation with
  | .error _ => true
  | .ok p =>
    match p.readOnlyFlag with
    | .error _ => true
    | .ok ro => if ro then true else false

/-- Whether either COM access raises (the claim's "fails closed" side). -/
def pptAccessRaises (env : PPTEnv) : Bool :=
  match env.activePresentation with
  | .error _ => true
  | .ok p =>
    match p.readOnlyFlag with
    | .error _ => true
    | .ok _ => false

/-- Claim C9: the read-only check returns true whenever either COM access
raises, and otherwise returns exactly the boolean `ReadOnly` flag. -/
theorem locked_check_fails_closed (env : PPTEnv) :
    (pptAccessRaises env = true → checkIfPPTLockedOrReadOnly env = true) ∧
    (∀ (p : COMPresentation) (ro : Bool),
      env.activePresentation = Except.ok p → p.readOnlyFlag = Except.ok ro →
      checkIfPPTLockedOrReadOnly env = ro) := by
  obtain ⟨ap⟩ := env
  constructor
  · cases ap with
    | error e => intro _; rfl
    | ok p =>
      obtain ⟨rof⟩ := p
      cases rof with
      | error e => intro _; rfl
      | ok ro =>
        intro h
        simp [pptAccessRaises] at h
  · intro p ro hap hro
    cases ap with
    | error e => exact Except.noConfusion hap
    | ok p' =>
      have hp : p' = p := by injection hap
      subst hp
      simp only [checkIfPPTLockedOrReadOnly, hro]
      cases ro <;> rfl

def lockedEnv : PPTEnv :=
  { activePresentation := Except.error ("no active presentation") }
def unlockedPresentation : COMPresentation := { readOnlyFlag := Except.ok false }
def unlockedEnv : PPTEnv :=
  { activePresentation := Except.ok unlockedPresentation }

/-- Witness for C9: a raising environment reports locked; a healthy
environment with `ReadOnly = False` reports unlocked. -/
theorem locked_check_fails_closed_witness :
    pptAccessRaises lockedEnv = true ∧
    checkIfPPTLockedOrReadOnly lockedEnv = true ∧
    checkIfPPTLockedOrReadOnly unlockedEnv = false :=
  ⟨rfl, (locked_check_fails_closed lockedEnv).1 rfl,
   (locked_check_fails_closed unlockedEnv).2 unlockedPresentation false rfl rfl⟩

theorem configure_single_get (w : AvWidget) (k : String) (x : PVal) (k' : String) :
    (configure w [(k, x)]).properties k' =
      if k' = k then some x else w.properties k' := rfl

theorem stepSeq_bounded (amounts : List Int) :
    ∀ (w : AvWidget) (v m : Int),
      w.properties valueKey = some (PVal.i v) →
      w.properties maximumKey = some (PVal.i m) →
      v ≤ m →
      ∃ (w' : AvWidget) (v' : Int),
        stepSeq w amounts = some w' ∧
        w'.properties valueKey = some (PVal.i v') ∧ v' ≤ m ∧
        w'.properties maximumKey = some (PVal.i m) := by
  induction amounts with
  | nil => intro w v m hv hm hvm; exact ⟨w, v, rfl, hv, hvm, hm⟩
  | cons a rest ih =>
    intro w v m hv hm hvm
    have hstep : step w a =
        some (configure w [(valueKey, PVal.i (min (v + a) m))]) := by
      simp [step, getIntProp, hv, hm]
    have hv' : (configure w [(valueKey, PVal.i (min (v + a) m))]).properties valueKey
        = some (PVal.i (min (v + a) m)) := by
      rw [configure_single_get, if_pos rfl]
    have hm' : (configure w [(valueKey, PVal.i (min (v + a) m))]).properties maximumKey
        = some (PVal.i m) := by
      rw [configure_single_get, if_neg (by decide), hm]
    have h := ih (configure w [(valueKey, PVal.i (min (v + a) m))])
      (min (v + a) m) m hv' hm' (min_le_right _ _)
    simpa [stepSeq, hstep] using h

/-- Claim C10: for a progress bar whose integer value is at most its
maximum, one `step` writes exactly `min(current + amount, maximum)` back to
the value property, and after any sequence of `step` calls the value never
exceeds the maximum. -/
theorem progressbar_step_capped (w : AvWidget) (v m : Int)
    (hv : w.properties valueKey = some (PVal.i v))
    (hm : w.properties maximumKey = some (PVal.i m))
    (hvm : v ≤ m) :
    (∀ amount : Int, step w amount =
      some (configure w [(valueKey, PVal.i (min (v + amount) m))])) ∧
    (∀ amounts : List Int, ∃ (w' : AvWidget) (v' : Int),
      stepSeq w amounts = some w' ∧
      w'.properties valueKey = some (PVal.i v') ∧ v' ≤ m ∧
      w'.properties maximumKey = some (PVal.i m)) := by
  constructor
  · intro amount
    simp [step, getIntProp, hv, hm]
  · intro amounts
    exact stepSeq_bounded amounts w v m hv hm hvm

def pbDemo : AvWidget := avProgressbar_init 2 100 []
def pbAmounts : List Int := [10, 200, 7]

/-- Witness for C10: a freshly constructed progress bar (value 0, maximum
100) stays capped under a concrete sequence of steps. -/
theorem progressbar_step_capped_witness :
    pbDemo.properties valueKey = some (PVal.i 0) ∧
    pbDemo.properties maximumKey = some (PVal.i 100) ∧
    step pbDemo 10 = some (configure pbDemo [(valueKey, PVal.i (min (0 + 10) 100))]) ∧
    (∃ (w' : AvWidget) (v' : Int),
      stepSeq pbDemo pbAmounts = some w' ∧
      w'.properties valueKey = some (PVal.i v') ∧ v' ≤ 100 ∧
      w'.properties maximumKey = some (PVal.i 100)) :=
  ⟨by decide, by decide,
   (progressbar_step_capped pbDemo 0 100 (by decide) (by decide) (by decide)).1 10,
   (progressbar_step_capped pbDemo 0 100 (by decide) (by decide) (by decide)).2 pbAmounts⟩

/-- Outcome of one `win32file.CreateFile` attempt on the named pipe, as the
retry loop of `pipe_client_thread` distinguishes them: success, a raise
whose text contains "No process" (pipe not yet available), or any other
raise. -/
inductive ConnAttempt
| success
| noProcess
| otherError (msg : String)

/-- Result of the connection phase: either connected or gave up, with the
number of `CreateFile` attempts made and of fixed-delay sleeps performed. -/
inductive PipeResult
| connected (attempts sleeps : Nat)
| gaveUp (attempts sleeps : Nat)
deriving DecidableEq

/-- `for _ in range(10)` (avtk.py line 753). -/
def pipeRetryLimit : Nat := 10

/-- `time.sleep(0.5)` between attempts (avtk.py line 780), in milliseconds. -/
def pipeRetryDelayMs : Nat := 500

/-- The connect retry loop of `AvWindow.pipe_client_thread` (avtk.py lines
753-784): at most `remaining` more attempts; a "No process" failure sleeps
the fixed delay and retries, any other failure prints and gives up, success
connects (the subsequent read loop is irrelevant to the claim).  The whole
thread body sits inside a broad try/except, so every branch returns a
result instead of raising. -/
def pipe_connect_loop (env : Nat → ConnAttempt) :
    Nat → Nat → Nat → PipeResult
| 0, attempts, sleeps => .gaveUp attempts sleeps
| remaining + 1, attempts, sleeps =>
  match env attempts with
  | .success => .connected (attempts + 1) sleeps
  | .noProcess => pipe_connect_loop env remaining (attempts + 1) (sleeps + 1)
  | .otherError _ => .gaveUp (attempts + 1) sleeps

/-- The connection phase of `AvWindow.pipe_client_thread` (avtk.py lines
741-787), driven by the environment's answer to each attempt. -/
def pipe_client_thread (env : Nat → ConnAttempt) : PipeResult :=
  pipe_connect_loop env pipeRetryLimit 0 0

def attemptsOf : PipeResult → Nat
| .connected a _ => a
| .gaveUp a _ => a

/-- Whether `self.pipe_handle` was ever assigned. -/
def hasPipeHandle : PipeResult → Bool
| .connected _ _ => true
| .gaveUp _ _ => false

theorem pipe_connect_loop_attempts (env : Nat → ConnAttempt) :
    ∀ (remaining attempts sleeps : Nat),
      attemptsOf (pipe_connect_loop env remaining attempts sleeps) ≤
        attempts + remaining := by
  intro remaining
  induction remaining with
  | zero => intro a s; simp [pipe_connect_loop, attemptsOf]
  | succ r ih =>
    intro a s
    simp only [pipe_connect_loop]
    cases env a with
    | success =>
      show a + 1 ≤ a + (r + 1)
      omega
    | noProcess =>
      show attemptsOf (pipe_connect_loop env r (a + 1) (s + 1)) ≤ a + (r + 1)
      have h := ih (a + 1) (s + 1)
      omega
    | otherError m =>
      show a + 1 ≤ a + (r + 1)
      omega

theorem pipe_connect_loop_all_fail (env : Nat → ConnAttempt) :
    ∀ (remaining attempts sleeps : Nat),
      (∀ i, i < attempts + remaining → env i = ConnAttempt.noProcess) →
      pipe_connect_loop env remaining attempts sleeps =
        PipeResult.gaveUp (attempts + remaining) (sleeps + remaining) := by
  intro remaining
  induction remaining with
  | zero => intro a s h; simp [pipe_connect_loop]
  | succ r ih =>
    intro a s h
    have ha : env a = ConnAttempt.noProcess := h a (by omega)
    simp only [pipe_connect_loop, ha]
    rw [ih (a + 1) (s + 1) (fun i hi => h i (by omega))]
    congr 1 <;> omega

/-- Claim C6: connection establishment makes at most 10 `CreateFile`
attempts, sleeping the fixed 500 ms delay after each not-yet-available
failure; if every attempt fails that way it gives up (returns, no raise)
leaving the host without a pipe handle. -/
theorem pipe_connect_retry_bounded :
    pipeRetryLimit = 10 ∧ pipeRetryDelayMs = 500 ∧
    (∀ env, attemptsOf (pipe_client_thread env) ≤ pipeRetryLimit) ∧
    (∀ env, (∀ i, i < pipeRetryLimit → env i = ConnAttempt.noProcess) →
      pipe_client_thread env = PipeResult.gaveUp pipeRetryLimit pipeRetryLimit ∧
      hasPipeHandle (pipe_client_thread env) = false) := by
  refine ⟨rfl, rfl, ?_, ?_⟩
  · intro env
    have h := pipe_connect_loop_attempts env pipeRetryLimit 0 0
    simpa [pipe_client_thread] using h
  · intro env h
    have hall := pipe_connect_loop_all_fail env pipeRetryLimit 0 0 (fun i hi => h i (by omega))
    constructor
    · simpa [pipe_client_thread] using hall
    · simp [pipe_client_thread] at hall ⊢
      rw [hall]
      rfl

def alwaysNoProcess : Nat → ConnAttempt := fun _ => ConnAttempt.noProcess

/-- Witness for C6: under an environment where the pipe never appears, the
thread gives up after exactly 10 attempts and 10 sleeps, unconnected. -/
theorem pipe_connect_retry_bounded_witness :
    pipe_client_thread alwaysNoProcess = PipeResult.gaveUp pipeRetryLimit pipeRetryLimit ∧
    hasPipeHandle (pipe_client_thread alwaysNoProcess) = false :=
  pipe_connect_retry_bounded.2.2.2 alwaysNoProcess (fun _ _ => rfl)

/-- `time.sleep(0.1)` per poll (avtk.py line 829), in milliseconds. -/
def pollIntervalMs : Nat := 100

/-- The polling loop of `AvWindow.mainloop` (avtk.py lines 823-829): at
each iteration check `self.process.poll()`; a non-None result prints and
breaks the loop, otherwise sleep the fixed interval and poll again.
`exited n` says whether the child has exited by the n-th poll; the result
is the index of the poll at which the loop terminated (`none` if the fuel
ran out with the loop still running). -/
def mainloop_poll (exited : Nat → Bool) : Nat → Nat → Option Nat
| 0, _ => none
| fuel + 1, n => if exited n then some n else mainloop_poll exited fuel (n + 1)

theorem mainloop_poll_finds (exited : Nat → Bool) :
    ∀ (fuel start n : Nat), start ≤ n → n < start + fuel →
      exited n = true → (∀ m, start ≤ m → m < n → exited m = false) →
      mainloop_poll exited fuel start = some n := by
  intro fuel
  induction fuel with
  | zero =>
    intro start n h1 h2 _ _
    exact absurd h2 (by omega)
  | succ f ih =>
    intro start n h1 h2 hn hmin
    simp only [mainloop_poll]
    by_cases hs : exited start = true
    · have heq : start = n := by
        by_contra hne
        have hlt : start < n := by omega
        rw [hmin start (le_refl start) hlt] at hs
        exact Bool.noConfusion hs
      rw [if_pos hs, heq]
    · rw [if_neg hs]
      have hne : start ≠ n := fun h => hs (h ▸ hn)
      exact ih (start + 1) n (by omega) (by omega) hn
        (fun m hm1 hm2 => hmin m (by omega) hm2)

/-- Claim C7: if the child process has exited by poll `k`, the polling loop
(with fuel through poll `k`) terminates at the first poll `n ≤ k` that
observes the exit; every earlier poll saw the child alive, so the exit is
detected on the next poll after it happens — within one `pollIntervalMs`
sleep — and the loop then stops. -/
theorem mainloop_detects_child_exit (exited : Nat → Bool) (k : Nat)
    (hk : exited k = true) :
    ∃ n, n ≤ k ∧ exited n = true ∧ (∀ m, m < n → exited m = false) ∧
      mainloop_poll exited (k + 1) 0 = some n := by
  classical
  have hex : ∃ n, exited n = true := ⟨k, hk⟩
  refine ⟨Nat.find hex, Nat.find_min' hex hk, Nat.find_spec hex, ?_, ?_⟩
  · intro m hm
    have := Nat.find_min hex hm
    simpa using this
  · refine mainloop_poll_finds exited (k + 1) 0 (Nat.find hex) (Nat.zero_le _) ?_
      (Nat.find_spec hex) ?_
    · have := Nat.find_min' hex hk
      omega
    · intro m _ hm
      have := Nat.find_min hex hm
      simpa using this

def exitedAtTwo : Nat → Bool := fun n => decide (2 ≤ n)

/-- Witness for C7: a child that has exited by poll 5 is detected at the
first exited poll (index 2 here) and the loop stops there. -/
theorem mainloop_detects_child_exit_witness :
    exitedAtTwo 5 = true ∧
    (∃ n, n ≤ 5 ∧ exitedAtTwo n = true ∧ (∀ m, m < n → exitedAtTwo m = false) ∧
      mainloop_poll exitedAtTwo 6 0 = some n) :=
  ⟨rfl, mainloop_detects_child_exit exitedAtTwo 5 rfl⟩

/-- Numeric value of a decimal digit character. -/
def digitVal (c : Char) : Nat := c.toNat - 48

/-- Decimal reading of a digit string, the inverse of `Nat.repr`. -/
def decodeDigits (l : List Char) : Nat :=
  l.foldl (fun acc c => acc * 10 + digitVal c) 0

theorem toDigitsCore_shift (b : Nat) :
    ∀ (f n : Nat) (ds : List Char),
      Nat.toDigitsCore b f n ds = Nat.toDigitsCore b f n [] ++ ds := by
  intro f
  induction f with
  | zero => intro n ds; simp [Nat.toDigitsCore]
  | succ f ih =>
    intro n ds
    simp only [Nat.toDigitsCore]
    by_cases h : n / b = 0
    · simp [h]
    · rw [if_neg h, if_neg h, ih (n / b) [Nat.digitChar (n % b)],
        ih (n / b) (Nat.digitChar (n % b) :: ds)]
      simp

theorem digitVal_digitChar {d : Nat} (h : d < 10) :
    digitVal (Nat.digitChar d) = d := by
  interval_cases d <;> decide

theorem digitChar_ne_underscore {d : Nat} (h : d < 10) :
    Nat.digitChar d ≠ '_' := by
  interval_cases d <;> decide

theorem decodeDigits_append (l : List Char) (c : Char) :
    decodeDigits (l ++ [c]) = (decodeDigits l) * 10 + digitVal c := by
  simp [decodeDigits, List.foldl_append]

theorem decode_toDigitsCore :
    ∀ (f n : Nat), n < f → decodeDigits (Nat.toDigitsCore 10 f n []) = n := by
  intro f
  induction f with
  | zero => intro n h; exact absurd h (Nat.not_lt_zero n)
  | succ f ih =>
    intro n hn
    simp only [Nat.toDigitsCore]
    by_cases h : n / 10 = 0
    · rw [if_pos h]
      have hlt : n < 10 := by omega
      show decodeDigits [Nat.digitChar (n % 10)] = n
      have hmod : n % 10 = n := Nat.mod_eq_of_lt hlt
      simp [decodeDigits, hmod]
      exact digitVal_digitChar hlt
    · rw [if_neg h, toDigitsCore_shift, decodeDigits_append]
      have h10 : n / 10 < f := by
        have h1 : n / 10 < n := Nat.div_lt_self (by omega) (by omega)
        omega
      rw [ih (n / 10) h10, digitVal_digitChar (show n % 10 < 10 by omega)]
      omega

theorem decode_repr (n : Nat) : decodeDigits (Nat.repr n).data = n := by
  show decodeDigits (Nat.toDigitsCore 10 (n + 1) n []) = n
  exact decode_toDigitsCore (n + 1) n (Nat.lt_succ_self n)

theorem toDigitsCore_mem (f : Nat) :
    ∀ (n : Nat) (ds : List Char) (c : Char), c ∈ Nat.toDigitsCore 10 f n ds →
      c ∈ ds ∨ ∃ d, d < 10 ∧ c = Nat.digitChar d := by
  induction f with
  | zero =>
    intro n ds c hc
    simp [Nat.toDigitsCore] at hc
    exact Or.inl hc
  | succ f ih =>
    intro n ds c hc
    simp only [Nat.toDigitsCore] at hc
    by_cases h : n / 10 = 0
    · rw [if_pos h] at hc
      rcases List.mem_cons.mp hc with h1 | h1
      · exact Or.inr ⟨n % 10, by omega, h1⟩
      · exact Or.inl h1
    · rw [if_neg h] at hc
      rcases ih (n / 10) (Nat.digitChar (n % 10) :: ds) c hc with h1 | h1
      · rcases List.mem_cons.mp h1 with h2 | h2
        · exact Or.inr ⟨n % 10, by omega, h2⟩
        · exact Or.inl h2
      · exact Or.inr h1

theorem underscore_not_mem_repr (n : Nat) : ('_') ∉ (Nat.repr n).data := by
  intro hmem
  have hm : ('_') ∈ Nat.toDigitsCore 10 (n + 1) n [] := hmem
  rcases toDigitsCore_mem (n + 1) n [] ('_') hm with h | ⟨d, hd, h⟩
  · simp at h
  · exact digitChar_ne_underscore hd h.symm

theorem first_seg_eq : ∀ (a1 a2 b1 b2 : List Char),
    a1 ++ ('_') :: b1 = a2 ++ ('_') :: b2 → ('_') ∉ a1 → ('_') ∉ a2 → a1 = a2 := by
  intro a1
  induction a1 with
  | nil =>
    intro a2 b1 b2 h h1 h2
    cases a2 with
    | nil => rfl
    | cons c rest =>
      rw [List.nil_append, List.cons_append] at h
      injection h with hh _
      exact absurd (hh ▸ List.mem_cons_self c rest) h2
  | cons c rest ih =>
    intro a2 b1 b2 h h1 h2
    cases a2 with
    | nil =>
      rw [List.nil_append, List.cons_append] at h
      injection h with hh _
      exact absurd (hh ▸ List.mem_cons_self c rest) h1
    | cons c2 rest2 =>
      rw [List.cons_append, List.cons_append] at h
      injection h with hh ht
      subst hh
      rw [ih rest2 b1 b2 ht (fun hm => h1 (List.mem_cons_of_mem c hm))
        (fun hm => h2 (List.mem_cons_of_mem c hm))]

theorem last_seg_eq (a1 a2 b1 b2 : List Char)
    (h : a1 ++ ('_') :: b1 = a2 ++ ('_') :: b2)
    (h1 : ('_') ∉ b1) (h2 : ('_') ∉ b2) : b1 = b2 := by
  have hr := congrArg List.reverse h
  simp only [List.reverse_append, List.reverse_cons] at hr
  have hr' : b1.reverse ++ ('_') :: a1.reverse = b2.reverse ++ ('_') :: a2.reverse := by
    simpa [List.append_assoc] using hr
  have hb := first_seg_eq b1.reverse b2.reverse a1.reverse a2.reverse hr'
    (fun hm => h1 (List.mem_reverse.mp hm)) (fun hm => h2 (List.mem_reverse.mp hm))
  exact List.reverse_injective hb

theorem repr_data_inj {n1 n2 : Nat}
    (h : (Nat.repr n1).data = (Nat.repr n2).data) : n1 = n2 := by
  have hdec := congrArg decodeDigits h
  rwa [decode_repr, decode_repr] at hdec

/-- Two constructed widget identifiers agree only if the object identities
agree: the identifier's segment after its last underscore is the decimal
rendering of the object identity. -/
theorem widget_id_objId_inj (t1 t2 : String) (n1 n2 : Nat)
    (h : t1 ++ underscoreStr ++ Nat.repr n1 = t2 ++ underscoreStr ++ Nat.repr n2) :
    n1 = n2 := by
  have hd := congrArg String.data h
  have hu : underscoreStr.data = [('_')] := rfl
  simp only [String.data_append, hu, List.append_assoc, List.singleton_append] at hd
  exact repr_data_inj (last_seg_eq t1.data t2.data (Nat.repr n1).data (Nat.repr n2).data hd
    (underscore_not_mem_repr n1) (underscore_not_mem_repr n2))

/-- A window under construction together with the allocator of fresh
object identities: `id(self)` values of simultaneously live Python objects
are pairwise distinct, and every widget stored in a window's list stays
live, so construction draws a fresh identity each time. -/
structure BuildState where
  window : AvWindow
  nextObjId : Nat

/-- One widget-adding operation on the window (the factory methods of
avtk.py lines 322-381 and `add`, lines 316-320): construct a widget with a
fresh object identity and append it. -/
def addFreshWidget (st : BuildState) (wtype : String) (kwargs : Call) : BuildState :=
  { window := add st.window (avWidget_init st.nextObjId wtype kwargs)
    nextObjId := st.nextObjId + 1 }

/-- A finite sequence of widget-adding operations. -/
def buildWindow (st : BuildState) : List (String × Call) → BuildState
| [] => st
| spec :: rest => buildWindow (addFreshWidget st spec.1 spec.2) rest

/-- Invariant: every widget in the window carries the constructed
identifier for its object identity, identities are below the allocator's
next value, and identities are pairwise distinct. -/
def WidgetIdInv (st : BuildState) : Prop :=
  (∀ w ∈ st.window.widgets,
    w.id = w.widget_type ++ underscoreStr ++ Nat.repr w.objId ∧
    w.objId < st.nextObjId) ∧
  st.window.widgets.Pairwise (fun w1 w2 => w1.objId ≠ w2.objId)

theorem widgetIdInv_addFresh {st : BuildState} (hinv : WidgetIdInv st)
    (wtype : String) (kwargs : Call) :
    WidgetIdInv (addFreshWidget st wtype kwargs) := by
  obtain ⟨hall, hpw⟩ := hinv
  constructor
  · intro w hw
    rcases List.mem_append.mp hw with h | h
    · obtain ⟨h1, h2⟩ := hall w h
      refine ⟨h1, ?_⟩
      show w.objId < st.nextObjId + 1
      omega
    · rw [List.mem_singleton] at h
      subst h
      exact ⟨rfl, Nat.lt_succ_self _⟩
  · refine List.pairwise_append.mpr ⟨hpw, List.pairwise_singleton _ _, ?_⟩
    intro a ha b hb
    rw [List.mem_singleton] at hb
    subst hb
    have h2 := (hall a ha).2
    show a.objId ≠ st.nextObjId
    omega

theorem widgetIdInv_build : ∀ (specs : List (String × Call)) (st : BuildState),
    WidgetIdInv st → WidgetIdInv (buildWindow st specs) := by
  intro specs
  induction specs with
  | nil => intro st h; exact h
  | cons spec rest ih =>
    intro st h
    exact ih _ (widgetIdInv_addFresh h spec.1 spec.2)

/-- Claim C8: starting from any window whose widgets satisfy the
construction invariant (constructed identifiers over pairwise-distinct live
object identities), every sequence of widget-adding operations preserves
the invariant, and any two distinct widgets in the resulting window have
distinct identifier strings. -/
theorem widget_ids_unique (st : BuildState) (specs : List (String × Call))
    (hinv : WidgetIdInv st) :
    WidgetIdInv (buildWindow st specs) ∧
    (buildWindow st specs).window.widgets.Pairwise (fun w1 w2 => w1.id ≠ w2.id) := by
  have h := widgetIdInv_build specs st hinv
  refine ⟨h, ?_⟩
  obtain ⟨hall, hpw⟩ := h
  refine hpw.imp_of_mem ?_
  intro a b ha hb hne heq
  obtain ⟨ha1, -⟩ := hall a ha
  obtain ⟨hb1, -⟩ := hall b hb
  exact hne (widget_id_objId_inj a.widget_type b.widget_type a.objId b.objId
    (by rw [← ha1, ← hb1, heq]))

def emptyBuild : BuildState := { window := avWindow_init ("W"), nextObjId := 0 }
def demoSpecs : List (String × Call) :=
  [(("Button"), []), (("Label"), []), (("Button"), [])]

/-- Witness for C8: three factory calls on a fresh window (two of them of
the same widget type) yield pairwise-distinct identifiers. -/
theorem widget_ids_unique_witness :
    WidgetIdInv emptyBuild ∧
    (buildWindow emptyBuild demoSpecs).window.widgets.Pairwise
      (fun w1 w2 => w1.id ≠ w2.id) :=
  have hinv : WidgetIdInv emptyBuild :=
    ⟨fun w hw => absurd hw (List.not_mem_nil w), List.Pairwise.nil⟩
  ⟨hinv, (widget_ids_unique emptyBuild demoSpecs hinv).2⟩
